import Mathlib

/-!
Verification development for the Smart-Contract-Analyzer backend
(`backend/app/rag/knowledge_base.py`, `backend/app/rag/document_processor.py`,
`backend/app/rag/rag_service.py`, `backend/app/rag/vector_store.py`,
`backend/main.py`).

The Python code is shallowly embedded: Python dictionaries become
insertion-ordered association lists over a `PyVal` value type, methods become
pure functions, the Chroma vector store becomes an explicit list of stored
documents threaded through the operations, and the two external effects
(the LLM call and the text splitter owned by the `langchain` library) become
explicit function parameters.  Fallible Python code (raised exceptions)
returns `Except String`.
-/

/-- A Python runtime value, restricted to the shapes that occur in this
program: `None`, booleans, integers, strings, lists and (string-keyed)
dictionaries.  Floats do not occur in any of the analyzed code paths and are
omitted. -/
inductive PyVal where
  | null
  | bool (b : Bool)
  | int (n : Int)
  | str (s : String)
  | list (xs : List PyVal)
  | dict (kvs : List (String × PyVal))
  deriving Repr

mutual

/-- Structural equality on `PyVal`, mirroring Python `==` on these shapes
(`1 == True` style cross-type coercions never arise in this program, where
compared values are strings). -/
def PyVal.beq : PyVal → PyVal → Bool
  | .null, .null => true
  | .bool a, .bool b => a == b
  | .int a, .int b => a == b
  | .str a, .str b => a == b
  | .list xs, .list ys => PyVal.beqList xs ys
  | .dict xs, .dict ys => PyVal.beqKV xs ys
  | _, _ => false

/-- Pointwise equality of Python lists. -/
def PyVal.beqList : List PyVal → List PyVal → Bool
  | [], [] => true
  | a :: as, b :: bs => PyVal.beq a b && PyVal.beqList as bs
  | _, _ => false

/-- Pointwise equality of Python dict entry lists. -/
def PyVal.beqKV : List (String × PyVal) → List (String × PyVal) → Bool
  | [], [] => true
  | (k, v) :: as, (l, w) :: bs => k == l && PyVal.beq v w && PyVal.beqKV as bs
  | _, _ => false

end

instance : BEq PyVal := ⟨PyVal.beq⟩

/-- A Python `dict` with string keys, as an insertion-ordered association
list.  All dictionaries built by this program have pairwise distinct keys, so
first-match lookup coincides with Python dict lookup. -/
abbrev PyDict := List (String × PyVal)

/-- Python `d[k]` / `d.get(k)`: first (equivalently, only) binding of `k`. -/
def dictGet : PyDict → String → Option PyVal
  | [], _ => Option.none
  | (k, v) :: rest, key => if k = key then Option.some v else dictGet rest key

/-- Python `d.get(k, default)`. -/
def dictGetD (d : PyDict) (key : String) (dflt : PyVal) : PyVal :=
  (dictGet d key).getD dflt

/-- Python `k in d` for a dict. -/
def dictHasKey (d : PyDict) (key : String) : Bool :=
  (dictGet d key).isSome

/-- Python truthiness (`if x:`) for the values that reach a truthiness test in
this program. -/
def pyTruthy : PyVal → Bool
  | .null => false
  | .bool b => b
  | .int n => n != 0
  | .str s => s != ""
  | .list xs => !xs.isEmpty
  | .dict kvs => !kvs.isEmpty

/-- Python truthiness of an `Optional[str]` argument (`if category:`):
true exactly for a present, non-empty string. -/
def pyTruthyOptStr : Option String → Bool
  | Option.some s => s != ""
  | Option.none => false

/-- Python `str(x)` as used in the f-strings of `rag_service.py`.  Metadata
values coming back from the Chroma store are scalars (Chroma only admits
scalar metadata values), so the container cases are unreachable there and are
rendered as the empty string. -/
def pyStr : PyVal → String
  | .null => "None"
  | .bool true => "True"
  | .bool false => "False"
  | .int n => toString n
  | .str s => s
  | .list _ => ""
  | .dict _ => ""

/-- An `Optional[str]` Python value as stored into metadata (`None` or the
string itself). -/
def optStr : Option String → PyVal
  | Option.some s => PyVal.str s
  | Option.none => PyVal.null

/-! ## Vector store model (`vector_store.py`)

A Chroma collection is modelled as the insertion-ordered list of its stored
documents.  Embedding-based similarity ranking is external to the repository;
a search returning `n_results` items is modelled as the insertion-order
prefix of the matching documents (only the multiset of returned items matters
to the claims proved below, never the ranking itself). -/

/-- One record of a Chroma collection: id, document text, metadata. -/
structure StoredDoc where
  id : String
  document : String
  metadata : PyDict
  deriving Repr

/-- Embeds `VectorStoreManager.add_documents`: `collection.add` appends the zipped
triple to the collection. -/
def add_documents (col : List StoredDoc) (documents : List String)
    (metadatas : List PyDict) (ids : List String) : List StoredDoc :=
  col ++ List.zipWith3 (fun i d m => StoredDoc.mk i d m) ids documents metadatas

/-- One conjunct of a Chroma `where` filter, applied to a metadata dict.
`search_knowledge` produces equality clauses and `{"$gte": n}` clauses on
`severity`; nothing else occurs in the program. -/
def evalWhereClause (md : PyDict) (clause : String × PyVal) : Bool :=
  match clause with
  | (key, .dict [("$gte", .int n)]) =>
    match dictGet md key with
    | Option.some (.int v) => n ≤ v
    | _ => false
  | (key, v) =>
    match dictGet md key with
    | Option.some w => PyVal.beq w v
    | Option.none => false

/-- The result shape of `collection.query` (one nested list per query text;
this program always queries with a single text). -/
structure QueryResult where
  documents : List (List String)
  metadatas : List (List PyDict)
  ids : List (List String)
  deriving Repr

/-- Embeds `VectorStoreManager.search`: filter by the `where` clauses (all ANDed),
return up to `n_results` hits.  The external ranking is modelled as the
insertion-order prefix of the matches. -/
def vector_search (col : List StoredDoc) (n_results : Nat)
    (whereC : List (String × PyVal)) : QueryResult :=
  let hits := (col.filter (fun d => whereD d.metadata whereC)).take n_results
  { documents := [hits.map (fun d => d.document)]
  , metadatas := [hits.map (fun d => d.metadata)]
  , ids := [hits.map (fun d => d.id)] }
where
  whereD (md : PyDict) (cs : List (String × PyVal)) : Bool :=
    cs.all (evalWhereClause md)

/-- Embeds `VectorStoreManager.get_documents_by_metadata`, restricted to the one
filter shape the program uses (`{"contract_name": name}`): `collection.get`
returns the flat lists of all matching documents and metadatas. -/
def get_documents_by_metadata (col : List StoredDoc) (name : String) :
    List String × List PyDict :=
  let hits := col.filter
    (fun d => dictGet d.metadata "contract_name" == Option.some (PyVal.str name))
  (hits.map (fun d => d.document), hits.map (fun d => d.metadata))

/-! ## Knowledge base manager (`knowledge_base.py`) -/

/-- Embeds `json.dumps` on a list of strings (used for the `references` field),
with the standard separators and string escaping. -/
def json_dumps_strings (rs : List String) : String :=
  "[" ++ String.intercalate ", " (rs.map quote) ++ "]"
where
  escapeChar (c : Char) : String :=
    if c = '"' then "\\\"" else if c = '\\' then "\\\\"
    else if c = '\n' then "\\n" else if c = '\t' then "\\t"
    else if c = '\r' then "\\r" else String.mk [c]
  quote (s : String) : String :=
    "\"" ++ String.join (s.data.map escapeChar) ++ "\""

/-- The metadata dict built by `KnowledgeBaseManager.add_knowledge_item`
(lines 53-63), in its Python insertion order.  `now` stands for
`datetime.utcnow().isoformat()`. -/
def mk_knowledge_metadata (category pattern_type : String) (severity : Int)
    (standard version : Option String) (references : Option (List String))
    (code_example description : Option String) (now : String) : PyDict :=
  [ ("category", PyVal.str category)
  , ("pattern_type", PyVal.str pattern_type)
  , ("severity", PyVal.int severity)
  , ("standard", optStr standard)
  , ("version", optStr version)
  , ("references",
      match references with
      | Option.some rs => PyVal.str (json_dumps_strings rs)
      | Option.none => PyVal.null)
  , ("code_example", optStr code_example)
  , ("description", optStr description)
  , ("last_updated", PyVal.str now) ]

/-- Embeds `KnowledgeBaseManager.add_knowledge_item`.  Here `uuid` stands for the fresh
`uuid.uuid4()` string, `now` for the timestamp.  Returns the updated
collection together with the `{"id": ..., "metadata": ...}` result;
a `ValueError` is raised (before any store access) when the severity is out
of range. -/
def add_knowledge_item (col : List StoredDoc) (content category pattern_type : String)
    (severity : Int) (standard version : Option String)
    (references : Option (List String)) (code_example description : Option String)
    (uuid now : String) : Except String (List StoredDoc × String × PyDict) :=
  if severity < 0 ∨ severity > 5 then
    Except.error "Severity must be between 0 and 5"
  else
    let metadata := mk_knowledge_metadata category pattern_type severity
      standard version references code_example description now
    let item_id := "kb_" ++ uuid
    let col2 := add_documents col [content] [metadata] [item_id]
    Except.ok (col2, item_id, metadata)

/-- The `where` filter built by `KnowledgeBaseManager.search_knowledge`
(lines 102-111): each truthy string argument contributes an equality clause,
a present `min_severity` contributes a `{"$gte": ...}` clause. -/
def search_knowledge_where (category pattern_type : Option String)
    (min_severity : Option Int) (standard : Option String) :
    List (String × PyVal) :=
  (if pyTruthyOptStr category then
      [("category", PyVal.str (category.getD ""))] else [])
  ++ (if pyTruthyOptStr pattern_type then
      [("pattern_type", PyVal.str (pattern_type.getD ""))] else [])
  ++ (match min_severity with
      | Option.some n => [("severity", PyVal.dict [("$gte", PyVal.int n)])]
      | Option.none => [])
  ++ (if pyTruthyOptStr standard then
      [("standard", PyVal.str (standard.getD ""))] else [])

/-- Embeds `KnowledgeBaseManager.search_knowledge`: one vector-store search with the
combined filter. -/
def search_knowledge (col : List StoredDoc) (category pattern_type : Option String)
    (min_severity : Option Int) (standard : Option String)
    (n_results : Nat) : QueryResult :=
  vector_search col n_results
    (search_knowledge_where category pattern_type min_severity standard)

/-- The category key of a stored item as read by `get_knowledge_stats`:
`metadata.get("category", "unknown")`. -/
def category_of (md : PyDict) : PyVal :=
  dictGetD md "category" (PyVal.str "unknown")

/-- One step of the category tally:
`categories[category] = categories.get(category, 0) + 1` with Python dict
update semantics (update in place if present, else append). -/
def bump_category : List (PyVal × Nat) → PyVal → List (PyVal × Nat)
  | [], k => [(k, 1)]
  | (k2, n) :: rest, k =>
    if PyVal.beq k2 k then (k2, n + 1) :: rest else (k2, n) :: bump_category rest k

/-- Value of a key in the tally dict (first — equivalently only — binding;
0 when absent). -/
def category_count : List (PyVal × Nat) → PyVal → Nat
  | [], _ => 0
  | (k2, n) :: rest, k => if PyVal.beq k2 k then n else category_count rest k

/-- Embeds `KnowledgeBaseManager.get_knowledge_stats`: an empty-query search with
`n_results=1000` (the constant on line 130 — not the collection count), then
a per-category tally over the returned metadatas, defaulting a missing
category to `"unknown"`.  Returns the collection count paired with the
tally. -/
def get_knowledge_stats (col : List StoredDoc) : Nat × List (PyVal × Nat) :=
  let results := vector_search col 1000 []
  let cats := (results.metadatas.headD []).foldl
    (fun acc md => bump_category acc (category_of md)) []
  (col.length, cats)

/-! ## Document processor (`document_processor.py`) -/

/-- Embeds `DocumentProcessor.__init__`.  The constructor body performs no
validation of its own; it builds a `RecursiveCharacterTextSplitter`, whose
base-class constructor (third-party `langchain_text_splitters.TextSplitter`)
raises `ValueError` exactly when `chunk_overlap > chunk_size`.  That check is
the only failure of construction and is modelled here. -/
def document_processor_init (chunk_size chunk_overlap : Int) : Except String Unit :=
  if chunk_overlap > chunk_size then
    Except.error "Got a larger chunk overlap than chunk size, should be smaller."
  else
    Except.ok ()

/-- The class `\s` of the Python `re` module on the ASCII range (the inputs of this
program are ASCII source text; astral whitespace classes never occur). -/
def isPySpace (c : Char) : Bool :=
  c = ' ' ∨ c = '\t' ∨ c = '\n' ∨ c = '\r' ∨ c = '\x0b' ∨ c = '\x0c'

/-- The class `\w` of the Python `re` module on the ASCII range. -/
def isWordChar (c : Char) : Bool :=
  c.isAlpha ∨ c.isDigit ∨ c = '_'

/-- Consume a literal character sequence, or fail. -/
def eatLit : List Char → List Char → Option (List Char)
  | [], cs => Option.some cs
  | _ :: _, [] => Option.none
  | l :: ls, c :: cs => if c = l then eatLit ls cs else Option.none

/-- Consume `\s*` (greedy; no backtracking is ever needed after it in the
pattern below, because no alternative there starts with whitespace). -/
def eatWs : List Char → List Char
  | [] => []
  | c :: cs => if isPySpace c then eatWs cs else c :: cs

/-- Consume `\s+`. -/
def eatWs1 : List Char → Option (List Char)
  | [] => Option.none
  | c :: cs => if isPySpace c then Option.some (eatWs cs) else Option.none

/-- Consume `\w+`. -/
def eatWord : List Char → List Char
  | [] => []
  | c :: cs => if isWordChar c then eatWord cs else c :: cs

/-- Consume `\w+` (at least one word character). -/
def eatWord1 : List Char → Option (List Char)
  | [] => Option.none
  | c :: cs => if isWordChar c then Option.some (eatWord cs) else Option.none

/-- Consume `[^)]*`. -/
def eatNonParen : List Char → List Char
  | [] => []
  | c :: cs => if c = ')' then c :: cs else eatNonParen cs

/-- Consume an optional alternation `(?:w1|w2|...)?`: the first alternative
that matches wins; when none matches the group matches the empty string.
(No later part of the pattern can force backtracking into this group, since
everything after it is nullable.) -/
def eatAlts (alts : List String) (cs : List Char) : List Char :=
  match alts.findSome? (fun a => eatLit a.data cs) with
  | Option.some rest => rest
  | Option.none => cs

/-- Consume the optional group `(?:returns\s*\([^)]*\))?`: either the whole
group matches, or it contributes nothing. -/
def eatReturnsGroup (cs : List Char) : List Char :=
  match eatLit "returns".data cs with
  | Option.none => cs
  | Option.some r1 =>
    match eatLit ['('] (eatWs r1) with
    | Option.none => cs
    | Option.some r2 =>
      match eatLit [')'] (eatNonParen r2) with
      | Option.none => cs
      | Option.some r3 => r3

/-- Match, at the head of `cs`, the pattern of
`DocumentProcessor._extract_function_signatures` (line 102):

`function\s+(\w+)\s*\([^)]*\)\s*(?:public|private|internal|external)?\s*(?:view|pure|payable)?\s*(?:returns\s*\([^)]*\))?`

returning the length of `match.group(0)`.  The pattern never needs
backtracking across its components: each greedy piece is followed by a piece
that cannot match the characters the greedy piece consumes, and everything
after the mandatory `\)` is nullable. -/
def sig_match_len (cs : List Char) : Option Nat := do
  let r1 ← eatLit "function".data cs
  let r2 ← eatWs1 r1
  let r3 ← eatWord1 r2
  let r4 ← eatLit ['('] (eatWs r3)
  let r5 ← eatLit [')'] (eatNonParen r4)
  let r6 := eatAlts ["public", "private", "internal", "external"] (eatWs r5)
  let r7 := eatAlts ["view", "pure", "payable"] (eatWs r6)
  let r8 := eatReturnsGroup (eatWs r7)
  Option.some (cs.length - r8.length)

/-- Scanning loop of `re.finditer`: try a match at each position, emit
`match.group(0)` and resume after it (matches are non-overlapping and never
empty — the literal `function` is mandatory).  The fuel argument starts at
the list length and always dominates it, so it never runs out. -/
def finditer_sigs : Nat → List Char → List String
  | 0, _ => []
  | Nat.succ _, [] => []
  | Nat.succ f, c :: cs =>
    match sig_match_len (c :: cs) with
    | Option.some n =>
      String.mk ((c :: cs).take n) :: finditer_sigs f (cs.drop (n - 1))
    | Option.none => finditer_sigs f cs

/-- Embeds `re.finditer` over the pattern above, returning `match.group(0)` of each
non-overlapping match, scanning left to right
(`DocumentProcessor._extract_function_signatures`, lines 104-105). -/
def extract_function_signatures (cs : List Char) : List String :=
  finditer_sigs cs.length cs

/-- The per-chunk metadata dict built by
`DocumentProcessor.process_smart_contract` (lines 62-79), in Python insertion
order.  `now` stands for `datetime.now().isoformat()`. -/
def chunk_metadata (contract_name : String) (contract_address network : Option String)
    (now : String) (total : Nat) (i : Nat) (chunk : String) : PyDict :=
  [ ("contract_name", PyVal.str contract_name)
  , ("chunk_index", PyVal.int (i : Int))
  , ("total_chunks", PyVal.int (total : Int))
  , ("source", PyVal.str "smart_contract")
  , ("timestamp", PyVal.str now) ]
  ++ (match contract_address with
      | Option.some a => [("contract_address", PyVal.str a)]
      | Option.none => [])
  ++ (match network with
      | Option.some n => [("network", PyVal.str n)]
      | Option.none => [])
  ++ (let sigs := extract_function_signatures chunk.data
      if sigs.isEmpty then []
      else [("functions", PyVal.str (String.intercalate ", " sigs))])

/-- The `{"documents": ..., "metadatas": ..., "ids": ...}` triple returned by
`process_smart_contract`. -/
structure ProcessedContract where
  documents : List String
  metadatas : List PyDict
  ids : List String
  deriving Repr

/-- Embeds `DocumentProcessor.process_smart_contract` (lines 32-89).  The text
splitter is third-party `langchain` code and enters as the function
`splitText` (its output list of chunks); `genId i` stands for the fresh
`uuid.uuid4()` string generated at loop iteration `i`, `now` for the
timestamp. -/
def process_smart_contract (splitText : String → List String)
    (genId : Nat → String) (now : String)
    (contract_text contract_name : String)
    (contract_address network : Option String) : ProcessedContract :=
  let chunks := splitText contract_text
  { documents := chunks
  , metadatas := chunks.mapIdx
      (chunk_metadata contract_name contract_address network now chunks.length)
  , ids := chunks.mapIdx (fun i _ => genId i) }

/-! ## JSON parsing (`json.loads` as used by the clause extractor)

A recursive-descent parser for the JSON subset that can appear in the
analyzed code paths: `null`, booleans, (signed) integers, strings with the
standard escapes, arrays and objects.  (Fractional and exponent number forms
are not modelled; no claim involves them.)  The fuel argument strictly
exceeds the number of parser steps possible on the input, so it never runs
out on well-formed input. -/

/-- Skip JSON whitespace. -/
def skipWs : List Char → List Char
  | [] => []
  | c :: cs =>
    if c = ' ' ∨ c = '\t' ∨ c = '\n' ∨ c = '\r' then skipWs cs else c :: cs

/-- Parse the body of a JSON string literal (after the opening quote),
returning the decoded string and the input following the closing quote. -/
def parseStringBody : List Char → Option (List Char × List Char)
  | [] => Option.none
  | '"' :: rest => Option.some ([], rest)
  | '\\' :: e :: rest =>
    (fun d => match parseStringBody rest with
      | Option.some (s, r) => Option.some (d :: s, r)
      | Option.none => Option.none) <|
    (match e with
      | '"' => '"' | '\\' => '\\' | '/' => '/'
      | 'n' => '\n' | 't' => '\t' | 'r' => '\r'
      | 'b' => '\x08' | 'f' => '\x0c'
      | c => c)
  | c :: rest =>
    match parseStringBody rest with
    | Option.some (s, r) => Option.some (c :: s, r)
    | Option.none => Option.none

/-- Parse a run of decimal digits into a natural number. -/
def parseDigits : List Char → Nat → Nat × List Char
  | c :: cs, acc =>
    if c.isDigit then parseDigits cs (acc * 10 + (c.toNat - '0'.toNat))
    else (acc, c :: cs)
  | [], acc => (acc, [])

/-- Parse a JSON integer (optional minus sign, at least one digit). -/
def parseIntLit : List Char → Option (Int × List Char)
  | '-' :: c :: cs =>
    if c.isDigit then
      let (n, rest) := parseDigits (c :: cs) 0
      Option.some (-(n : Int), rest)
    else Option.none
  | c :: cs =>
    if c.isDigit then
      let (n, rest) := parseDigits (c :: cs) 0
      Option.some ((n : Int), rest)
    else Option.none
  | [] => Option.none

mutual

/-- Parse one JSON value. -/
def parseVal : Nat → List Char → Option (PyVal × List Char)
  | 0, _ => Option.none
  | Nat.succ f, cs =>
    match skipWs cs with
    | '"' :: rest =>
      match parseStringBody rest with
      | Option.some (s, r) => Option.some (PyVal.str (String.mk s), r)
      | Option.none => Option.none
    | '[' :: rest =>
      match parseElems f rest with
      | Option.some (xs, r) => Option.some (PyVal.list xs, r)
      | Option.none => Option.none
    | '{' :: rest =>
      match parseMembers f rest with
      | Option.some (kvs, r) => Option.some (PyVal.dict kvs, r)
      | Option.none => Option.none
    | 't' :: 'r' :: 'u' :: 'e' :: rest => Option.some (PyVal.bool true, rest)
    | 'f' :: 'a' :: 'l' :: 's' :: 'e' :: rest => Option.some (PyVal.bool false, rest)
    | 'n' :: 'u' :: 'l' :: 'l' :: rest => Option.some (PyVal.null, rest)
    | other =>
      match parseIntLit other with
      | Option.some (n, r) => Option.some (PyVal.int n, r)
      | Option.none => Option.none

/-- Parse the elements of a JSON array (after the opening bracket). -/
def parseElems : Nat → List Char → Option (List PyVal × List Char)
  | 0, _ => Option.none
  | Nat.succ f, cs =>
    match skipWs cs with
    | ']' :: rest => Option.some ([], rest)
    | cs2 =>
      match parseVal f cs2 with
      | Option.some (v, rest) =>
        (match skipWs rest with
          | ',' :: rest2 =>
            match parseElems f rest2 with
            | Option.some (vs, r) =>
              match vs with
              | [] =>
                -- a `,` must be followed by another element, not `]`
                match skipWs rest2 with
                | ']' :: _ => Option.none
                | _ => Option.some (v :: vs, r)
              | _ :: _ => Option.some (v :: vs, r)
            | Option.none => Option.none
          | ']' :: rest2 => Option.some ([v], rest2)
          | _ => Option.none)
      | Option.none => Option.none

/-- Parse the members of a JSON object (after the opening brace). -/
def parseMembers : Nat → List Char → Option (List (String × PyVal) × List Char)
  | 0, _ => Option.none
  | Nat.succ f, cs =>
    match skipWs cs with
    | '\x7d' :: rest => Option.some ([], rest)
    | '"' :: cs2 =>
      match parseStringBody cs2 with
      | Option.some (k, rest) =>
        (match skipWs rest with
          | ':' :: rest2 =>
            match parseVal f rest2 with
            | Option.some (v, rest3) =>
              (match skipWs rest3 with
                | ',' :: rest4 =>
                  match parseMembers f rest4 with
                  | Option.some (kvs, r) =>
                    (match skipWs rest4 with
                      | '\x7d' :: _ => Option.none
                      | _ => Option.some ((String.mk k, v) :: kvs, r))
                  | Option.none => Option.none
                | '\x7d' :: rest4 => Option.some ([(String.mk k, v)], rest4)
                | _ => Option.none)
            | Option.none => Option.none
          | _ => Option.none)
      | Option.none => Option.none
    | _ => Option.none

end

/-- Embeds `json.loads`: parse one JSON document; trailing whitespace is allowed,
any other trailing input is an error ("Extra data"). -/
def json_loads (s : String) : Option PyVal :=
  match parseVal (3 * s.data.length + 3) s.data with
  | Option.some (v, rest) =>
    match skipWs rest with
    | [] => Option.some v
    | _ :: _ => Option.none
  | Option.none => Option.none

/-! ## Clause extraction (`rag_service.py` lines 287-364, `main.py` 98-192) -/

/-- Python `str.find(ch)`: index of the first occurrence, `-1` if absent. -/
def str_find (s : String) (c : Char) : Int :=
  match s.data.findIdx? (fun x => x = c) with
  | Option.some i => (i : Int)
  | Option.none => -1

/-- Python `str.rfind(ch)`: index of the last occurrence, `-1` if absent. -/
def str_rfind (s : String) (c : Char) : Int :=
  match s.data.reverse.findIdx? (fun x => x = c) with
  | Option.some i => ((s.data.length - 1 - i : Nat) : Int)
  | Option.none => -1

/-- The four required clause fields (`rag_service.py` line 344). -/
def required_fields : List String :=
  ["clause_number", "original_clause", "explanation", "risk_flag"]

/-- Boolean substring test on character lists (Python `sub in s` for
strings). -/
def charsContain (needle : List Char) : List Char → Bool
  | [] => needle.isEmpty
  | c :: cs => needle.isPrefixOf (c :: cs) || charsContain needle cs

/-- Python `field in item` for a parsed JSON value: key membership for an
object, substring test for a string, element membership for a list.  (On the
remaining shapes Python raises `TypeError`, which the surrounding
`except Exception` clause re-raises; those shapes never carry any of the
required field names, so they are uniformly reported as missing here.) -/
def py_in (field : String) : PyVal → Bool
  | .dict kvs => kvs.any (fun kv => kv.1 == field)
  | .str s => charsContain field.data s.data
  | .list xs => xs.any (fun x => PyVal.beq x (PyVal.str field))
  | _ => false

/-- The first required field missing from a clause item, if any
(the validation loop of lines 343-347 raises at the first such field). -/
def missing_field (item : PyVal) : Option String :=
  required_fields.find? (fun f => !py_in f item)

/-- The JSON-extraction-and-validation part of
`RAGService.analyze_contract_with_claude` (lines 331-353), applied to the raw
LLM response text: slice from the first `[` to the last `]`, `json.loads`
the slice, require a JSON array, require every element to carry all four
required fields. -/
def extractClauses (response_text : String) : Except String (List PyVal) :=
  let start_idx := str_find response_text '['
  let end_idx := str_rfind response_text ']' + 1
  if start_idx ≠ -1 ∧ end_idx ≠ 0 then
    let json_str :=
      String.mk ((response_text.data.drop start_idx.toNat).take
        (end_idx.toNat - start_idx.toNat))
    match json_loads json_str with
    | Option.none => Except.error "JSONDecodeError"
    | Option.some parsed_result =>
      match parsed_result with
      | PyVal.list items =>
        match items.findSome? missing_field with
        | Option.some f =>
          Except.error ("Missing required field: " ++ f ++ " in analysis item")
        | Option.none => Except.ok items
      | _ => Except.error "Analysis response is not a JSON array"
  else
    Except.error "No valid JSON array found in AI analysis response"

/-- The fixed instruction text preceding the document excerpt in the
analysis prompt of `RAGService.analyze_contract_with_claude`
(lines 293-318). -/
def analysis_prompt_head : String :=
  "\nYou are an expert legal analyst specializing in contract review for non-lawyers.\nYour job is to make complex legal language accessible and highlight potential risks.\n\nAnalyze the following contract and break it down into numbered clauses.\nFor each significant clause, return a JSON object with the structure shown below.\n\nImportant guidelines:\n1. Focus on the most important clauses (aim for 5-15 clauses total)\n2. Skip boilerplate sections like signatures, dates, and standard formatting\n3. Prioritize clauses that involve rights, obligations, payments, termination, liability, etc.\n4. For risk_flag, use \"Yes\" only for genuine concerns that a non-lawyer should be aware of\n5. Keep explanations clear and accessible to non-lawyers\n\nReturn ONLY a valid JSON array in this exact format:\n\n[\x7b\n  \"clause_number\": 1,\n  \"original_clause\": \"The exact text of the clause from the contract\",\n  \"explanation\": \"Clear explanation in plain English of what this clause means\",\n  \"risk_flag\": \"Yes or No\",\n  \"risk_reason\": \"Explanation of the risk (only include if risk_flag is Yes)\"\n\x7d]\n\nContract text to analyze:\n\n"

/-- The fixed text following the document excerpt in the analysis prompt
(end of line 319 and line 320 of `rag_service.py`). -/
def analysis_prompt_tail : String :=
  "  # Limit to prevent token overflow\n        "

/-- The analysis prompt: the instruction text around
`contract_text[:8000]` — the document is truncated to its first 8000
characters (line 319). -/
def analysis_prompt (contract_text : String) : String :=
  analysis_prompt_head ++ String.mk (contract_text.data.take 8000)
    ++ analysis_prompt_tail

/-- Embeds `RAGService.analyze_contract_with_claude`: send the analysis prompt for
the given contract text to the LLM (modelled as the function `llm` from
prompt to response text) and run clause extraction on the response. -/
def analyze_contract_with_claude (llm : String → String)
    (contract_text : String) : Except String (List PyVal) :=
  extractClauses (llm (analysis_prompt contract_text))

/-- The sort key of `analyze_stored_contract` (line 393):
`item[1].get("chunk_index", 0)`.  The stored value is always the integer
written by `process_smart_contract`; a missing key defaults to 0. -/
def chunk_sort_key (md : PyDict) : Int :=
  match dictGet md "chunk_index" with
  | Option.some (PyVal.int n) => n
  | _ => 0

/-- Embeds `RAGService.analyze_stored_contract` (lines 366-410): fetch all chunks
whose `contract_name` metadata equals the given name, fail when none match,
otherwise stably sort the (document, metadata) pairs by stored chunk index,
join the documents with a newline, and run the same analysis on the result. -/
def analyze_stored_contract (llm : String → String) (col : List StoredDoc)
    (contract_name : String) : Except String (List PyVal) :=
  let results := get_documents_by_metadata col contract_name
  let documents := results.1
  let metadatas := results.2
  if documents.isEmpty then
    Except.error ("No chunks found for contract: " ++ contract_name)
  else
    let chunks_with_metadata := (documents.zip metadatas).mergeSort
      (fun a b => decide (chunk_sort_key a.2 ≤ chunk_sort_key b.2))
    let full_contract_text :=
      String.intercalate "\n" (chunks_with_metadata.map (fun p => p.1))
    analyze_contract_with_claude llm full_contract_text

/-! ## Context retrieval (`RAGService._retrieve_context`, lines 128-161) -/

/-- Python `", ".join(x)` as applied on line 145 to `metadata['functions']`.
That value is the comma-joined *string* written by `process_smart_contract`,
so the join iterates over its characters; the list case (a list of strings)
is included for completeness. -/
def py_join_comma : PyVal → String
  | .str s => String.intercalate ", " (s.data.map (fun c => String.mk [c]))
  | .list xs => String.intercalate ", " (xs.map pyStr)
  | _ => ""

/-- The context entry built for one contract-collection hit
(lines 142-147). -/
def contract_entry (doc : String) (md : PyDict) : String :=
  "From Contract " ++
    (pyStr (dictGetD md "contract_name" (PyVal.str "Unknown")) ++
     (if dictHasKey md "functions" then
        " (Functions: " ++ py_join_comma (dictGetD md "functions" PyVal.null) ++ ")"
      else "") ++
     (":\n" ++ doc ++ "\n"))

/-- The context entry built for one knowledge-base hit (lines 150-159). -/
def knowledge_entry (doc : String) (md : PyDict) : String :=
  "Knowledge Base (" ++
    (pyStr (dictGetD md "category" (PyVal.str "Unknown")) ++ ")" ++
     (if pyTruthy (dictGetD md "severity" PyVal.null) then
        " [Severity: " ++ pyStr (dictGetD md "severity" PyVal.null) ++ "/5]"
      else "") ++
     (if pyTruthy (dictGetD md "code_example" PyVal.null) then
        "\nExample Implementation:\n" ++ pyStr (dictGetD md "code_example" PyVal.null)
      else "") ++
     (if pyTruthy (dictGetD md "description" PyVal.null) then
        "\nDescription: " ++ pyStr (dictGetD md "description" PyVal.null)
      else "") ++
     (":\n" ++ doc ++ "\n"))

/-- Embeds `RAGService._retrieve_context`, applied to the two search-result pair
lists (`zip(results["documents"][0], results["metadatas"][0])` for each
collection): build `context_parts` by appending one entry per contract hit,
then one entry per knowledge hit, and join with a blank line. -/
def retrieve_context (contract_hits knowledge_hits : List (String × PyDict)) :
    String :=
  let parts1 := contract_hits.foldl
    (fun acc p => acc ++ [contract_entry p.1 p.2]) []
  let parts2 := knowledge_hits.foldl
    (fun acc p => acc ++ [knowledge_entry p.1 p.2]) parts1
  String.intercalate "\n\n" parts2

/-! ## Claims -/

/-- C1: `add_knowledge_item` with severity < 0 or severity > 5 fails with the
validation error before any call to the vector store, leaving storage
unchanged (no updated collection is produced); with severity 0 or 5 (and the
other required fields supplied) it succeeds, appends exactly the new item,
and returns the generated id and metadata. -/
theorem C1_severity_validated_at_write
    (col : List StoredDoc) (content category pattern_type : String)
    (severity : Int) (standard version : Option String)
    (references : Option (List String)) (code_example description : Option String)
    (uuid now : String) :
    (severity < 0 ∨ 5 < severity →
      add_knowledge_item col content category pattern_type severity standard
        version references code_example description uuid now =
        Except.error "Severity must be between 0 and 5")
    ∧ (severity = 0 ∨ severity = 5 →
      add_knowledge_item col content category pattern_type severity standard
        version references code_example description uuid now =
        Except.ok
          (col ++ [StoredDoc.mk ("kb_" ++ uuid) content
              (mk_knowledge_metadata category pattern_type severity standard
                version references code_example description now)],
           "kb_" ++ uuid,
           mk_knowledge_metadata category pattern_type severity standard
             version references code_example description now)) := by
  constructor
  · intro h
    unfold add_knowledge_item
    rw [if_pos]
    exact h
  · intro h
    have hcond : ¬ (severity < 0 ∨ severity > 5) := by
      rcases h with h | h <;> omega
    unfold add_knowledge_item
    rw [if_neg hcond]
    rfl

/-- Witness for C1 at concrete inputs: severity −1 and 6 are rejected,
severity 0 and 5 are accepted with the expected result. -/
theorem C1_witness :
    (add_knowledge_item [] "c" "cat" "pt" (-1) Option.none Option.none
        Option.none Option.none Option.none "u" "t" =
      Except.error "Severity must be between 0 and 5")
    ∧ (add_knowledge_item [] "c" "cat" "pt" 6 Option.none Option.none
        Option.none Option.none Option.none "u" "t" =
      Except.error "Severity must be between 0 and 5")
    ∧ (add_knowledge_item [] "c" "cat" "pt" 0 Option.none Option.none
        Option.none Option.none Option.none "u" "t" =
      Except.ok
        ([] ++ [StoredDoc.mk ("kb_" ++ "u") "c"
            (mk_knowledge_metadata "cat" "pt" 0 Option.none Option.none
              Option.none Option.none Option.none "t")],
         "kb_" ++ "u",
         mk_knowledge_metadata "cat" "pt" 0 Option.none Option.none
           Option.none Option.none Option.none "t"))
    ∧ (add_knowledge_item [] "c" "cat" "pt" 5 Option.none Option.none
        Option.none Option.none Option.none "u" "t" =
      Except.ok
        ([] ++ [StoredDoc.mk ("kb_" ++ "u") "c"
            (mk_knowledge_metadata "cat" "pt" 5 Option.none Option.none
              Option.none Option.none Option.none "t")],
         "kb_" ++ "u",
         mk_knowledge_metadata "cat" "pt" 5 Option.none Option.none
           Option.none Option.none Option.none "t")) :=
  ⟨(C1_severity_validated_at_write [] "c" "cat" "pt" (-1) Option.none Option.none
      Option.none Option.none Option.none "u" "t").1 (by omega),
   (C1_severity_validated_at_write [] "c" "cat" "pt" 6 Option.none Option.none
      Option.none Option.none Option.none "u" "t").1 (by omega),
   (C1_severity_validated_at_write [] "c" "cat" "pt" 0 Option.none Option.none
      Option.none Option.none Option.none "u" "t").2 (Or.inl rfl),
   (C1_severity_validated_at_write [] "c" "cat" "pt" 5 Option.none Option.none
      Option.none Option.none Option.none "u" "t").2 (Or.inr rfl)⟩

/-- C2 counterexample: the claim says construction with chunk overlap equal
to chunk size must fail, but `DocumentProcessor(chunk_size=1000,
chunk_overlap=1000)` succeeds — neither the repository constructor nor the
underlying splitter rejects equality (the splitter rejects only
`chunk_overlap > chunk_size`). -/
theorem C2_counterexample :
    document_processor_init 1000 1000 = Except.ok () := by
  rfl

/-- C2 (amended): construction succeeds exactly when the chunk overlap is at
most the chunk size; only a strictly larger overlap is rejected. -/
theorem C2_overlap_validation (chunk_size chunk_overlap : Int) :
    document_processor_init chunk_size chunk_overlap = Except.ok () ↔
      chunk_overlap ≤ chunk_size := by
  unfold document_processor_init
  by_cases h : chunk_overlap > chunk_size
  · rw [if_pos h]
    constructor
    · intro he
      exact absurd he (by simp)
    · intro hle
      omega
  · rw [if_neg h]
    constructor
    · intro _
      omega
    · intro _
      rfl

/-- C8: the analysis prompt (and hence the whole clause analysis, for any
LLM behavior) depends only on the first 8000 characters of the document
text: two documents agreeing on their first 8000 characters produce the
identical prompt and the identical analysis result. -/
theorem C8_truncation_to_8000 (t1 t2 : String)
    (h : t1.data.take 8000 = t2.data.take 8000) :
    analysis_prompt t1 = analysis_prompt t2
    ∧ ∀ llm : String → String,
        analyze_contract_with_claude llm t1 = analyze_contract_with_claude llm t2 := by
  have hp : analysis_prompt t1 = analysis_prompt t2 := by
    unfold analysis_prompt
    rw [h]
  exact ⟨hp, fun llm => by unfold analyze_contract_with_claude; rw [hp]⟩

/-- Witness for C8: two documents that differ (in character 8001) but agree
on their first 8000 characters get the same prompt. -/
theorem C8_witness :
    String.mk (List.replicate 8000 'a' ++ ['X']) ≠
      String.mk (List.replicate 8000 'a' ++ ['Y'])
    ∧ analysis_prompt (String.mk (List.replicate 8000 'a' ++ ['X'])) =
      analysis_prompt (String.mk (List.replicate 8000 'a' ++ ['Y'])) := by
  constructor
  · intro h
    have h2 := congrArg (fun s => s.data.getLast?) h
    simp only [List.getLast?_concat] at h2
    exact absurd (Option.some.inj h2) (by decide)
  · refine (C8_truncation_to_8000 _ _ ?_).1
    show (List.replicate 8000 'a' ++ ['X']).take 8000 =
      (List.replicate 8000 'a' ++ ['Y']).take 8000
    rw [List.take_left' (List.length_replicate 8000 'a'),
      List.take_left' (List.length_replicate 8000 'a')]

/-- C9: for every input text and configuration, `process_smart_contract`
returns documents, metadatas and ids lists of equal length, and the metadata
at each position `i` carries `chunk_index = i` and `total_chunks` equal to the
common length, so chunk indices form the contiguous range `0..n-1`. -/
theorem C9_chunk_index_invariants (splitText : String → List String)
    (genId : Nat → String) (now contract_text contract_name : String)
    (contract_address network : Option String) :
    (process_smart_contract splitText genId now contract_text
        contract_name contract_address network).documents.length =
      (process_smart_contract splitText genId now contract_text
        contract_name contract_address network).metadatas.length
    ∧ (process_smart_contract splitText genId now contract_text
        contract_name contract_address network).documents.length =
      (process_smart_contract splitText genId now contract_text
        contract_name contract_address network).ids.length
    ∧ ∀ i (h : i < (process_smart_contract splitText genId now contract_text
        contract_name contract_address network).metadatas.length),
        dictGet ((process_smart_contract splitText genId now contract_text
            contract_name contract_address network).metadatas.get ⟨i, h⟩)
          "chunk_index" = Option.some (PyVal.int (i : Int))
        ∧ dictGet ((process_smart_contract splitText genId now contract_text
            contract_name contract_address network).metadatas.get ⟨i, h⟩)
          "total_chunks" = Option.some (PyVal.int
            ((process_smart_contract splitText genId now contract_text
              contract_name contract_address network).documents.length : Int)) := by
  refine ⟨by simp [process_smart_contract], by simp [process_smart_contract], ?_⟩
  intro i h
  have hlen : i < (splitText contract_text).length := by
    simpa [process_smart_contract] using h
  have hget : (process_smart_contract splitText genId now contract_text
      contract_name contract_address network).metadatas.get ⟨i, h⟩ =
      chunk_metadata contract_name contract_address network now
        (splitText contract_text).length i
        ((splitText contract_text).get ⟨i, hlen⟩) := by
    simp [process_smart_contract, List.get_eq_getElem, List.getElem_mapIdx]
  rw [hget]
  unfold chunk_metadata
  constructor <;> simp [dictGet, process_smart_contract]

/-- Witness for C9 at a concrete input (two chunks). -/
theorem C9_witness :
    let r := process_smart_contract (fun t => [t, t]) (fun i => toString i) "ts"
      "text" "C" Option.none Option.none
    r.documents.length = r.metadatas.length
    ∧ (0 < r.metadatas.length
      ∧ dictGet (r.metadatas.get ⟨0, by decide⟩) "chunk_index" =
          Option.some (PyVal.int 0))
    ∧ (1 < r.metadatas.length
      ∧ dictGet (r.metadatas.get ⟨1, by decide⟩) "chunk_index" =
          Option.some (PyVal.int 1)) :=
  ⟨(C9_chunk_index_invariants (fun t => [t, t]) (fun i => toString i) "ts"
      "text" "C" Option.none Option.none).1,
   ⟨by decide,
    ((C9_chunk_index_invariants (fun t => [t, t]) (fun i => toString i) "ts"
      "text" "C" Option.none Option.none).2.2 0 (by decide)).1⟩,
   ⟨by decide,
    ((C9_chunk_index_invariants (fun t => [t, t]) (fun i => toString i) "ts"
      "text" "C" Option.none Option.none).2.2 1 (by decide)).1⟩⟩

/-- Modelled from the spec (data model, section 3): the `functionSignatures`
metadata field as the spec describes it — the list of all function-pattern
matches in the chunk, with type `list<string>`. -/
def spec_functionSignatures (chunk : String) : PyVal :=
  PyVal.list ((extract_function_signatures chunk.data).map PyVal.str)

/-- C4 counterexample: on a chunk containing two function declarations, the
stored `functions` metadata is the single comma-joined *string*
`"function f() , function g() "`, not the list-of-strings value the claim
requires (and the key is `functions`, populated only when matches exist). -/
theorem C4_counterexample :
    dictGet ((process_smart_contract (fun t => [t]) (fun _ => "id") "ts"
        "function f() function g() " "C" Option.none Option.none).metadatas.get
        ⟨0, by decide⟩) "functions" =
      Option.some (PyVal.str "function f() , function g() ")
    ∧ dictGet ((process_smart_contract (fun t => [t]) (fun _ => "id") "ts"
        "function f() function g() " "C" Option.none Option.none).metadatas.get
        ⟨0, by decide⟩) "functions" ≠
      Option.some (spec_functionSignatures "function f() function g() ") := by
  constructor
  · rfl
  · intro h
    have h2 : Option.some (PyVal.str "function f() , function g() ") =
        Option.some (spec_functionSignatures "function f() function g() ") := by
      rw [← h]
      rfl
    have h3 := Option.some.inj h2
    rw [show spec_functionSignatures "function f() function g() " =
      PyVal.list [PyVal.str "function f() ", PyVal.str "function g() "] from rfl] at h3
    exact PyVal.noConfusion h3

/-- C4 (amended): each chunk's metadata carries, under the key `functions`,
the comma-plus-space join of all regex matches in that chunk as one string —
and the key is omitted entirely when there are no matches; no list-valued
field is ever stored. -/
theorem C4_functions_metadata_is_joined_string (splitText : String → List String)
    (genId : Nat → String) (now contract_text contract_name : String)
    (contract_address network : Option String) :
    ∀ i (h1 : i < (process_smart_contract splitText genId now contract_text
        contract_name contract_address network).documents.length)
      (h2 : i < (process_smart_contract splitText genId now contract_text
        contract_name contract_address network).metadatas.length),
      dictGet ((process_smart_contract splitText genId now contract_text
          contract_name contract_address network).metadatas.get ⟨i, h2⟩)
        "functions" =
        (if (extract_function_signatures
              (((process_smart_contract splitText genId now contract_text
                contract_name contract_address network).documents.get
                ⟨i, h1⟩).data)).isEmpty
         then Option.none
         else Option.some (PyVal.str (String.intercalate ", "
           (extract_function_signatures
             (((process_smart_contract splitText genId now contract_text
               contract_name contract_address network).documents.get
               ⟨i, h1⟩).data))))) := by
  refine fun i h1 h2 => ?_
  have hlen : i < (splitText contract_text).length := by
    simpa [process_smart_contract] using h1
  have hdoc : (process_smart_contract splitText genId now contract_text
      contract_name contract_address network).documents.get ⟨i, h1⟩ =
      (splitText contract_text).get ⟨i, hlen⟩ := by
    simp [process_smart_contract]
  have hget : (process_smart_contract splitText genId now contract_text
      contract_name contract_address network).metadatas.get ⟨i, h2⟩ =
      chunk_metadata contract_name contract_address network now
        (splitText contract_text).length i
        ((splitText contract_text).get ⟨i, hlen⟩) := by
    simp [process_smart_contract, List.get_eq_getElem, List.getElem_mapIdx]
  rw [hget, hdoc]
  unfold chunk_metadata
  rcases contract_address with _ | a <;> rcases network with _ | n <;>
    rcases hsig : extract_function_signatures
      (((splitText contract_text).get ⟨i, hlen⟩).data) with _ | ⟨s, sigs⟩ <;>
    simp [dictGet, hsig]

/-- Witness for C4 (amended) at concrete inputs: a chunk with matches gets
the joined string, a chunk without matches gets no `functions` key. -/
theorem C4_witness :
    dictGet ((process_smart_contract (fun t => [t]) (fun _ => "id") "ts"
        "function f() function g() " "C" Option.none Option.none).metadatas.get
        ⟨0, by decide⟩) "functions" =
      Option.some (PyVal.str "function f() , function g() ")
    ∧ dictGet ((process_smart_contract (fun t => [t]) (fun _ => "id") "ts"
        "no declarations here" "C" Option.none Option.none).metadatas.get
        ⟨0, by decide⟩) "functions" = Option.none := by
  constructor
  · have h := (C4_functions_metadata_is_joined_string (fun t => [t]) (fun _ => "id")
      "ts" "function f() function g() " "C" Option.none Option.none) 0
      (by decide) (by decide)
    rw [h]
    rfl
  · have h := (C4_functions_metadata_is_joined_string (fun t => [t]) (fun _ => "id")
      "ts" "no declarations here" "C" Option.none Option.none) 0
      (by decide) (by decide)
    rw [h]
    rfl

/-- Appending one mapped element per iteration is the same as appending the
mapped list (shape of the `context_parts.append` loops). -/
theorem foldl_append_map {α β : Type} (f : α → β) (l : List α) (init : List β) :
    l.foldl (fun acc x => acc ++ [f x]) init = init ++ l.map f := by
  induction l generalizing init with
  | nil => simp
  | cons a as ih => simp [ih, List.append_assoc]

/-- C7: the assembled context is exactly the contract-collection hits first,
in search order, then the knowledge-base hits, in search order, with one
entry per hit (no deduplication or re-ranking), each entry prefixed by its
provenance text, all joined with a blank line. -/
theorem C7_context_order (contract_hits knowledge_hits : List (String × PyDict)) :
    retrieve_context contract_hits knowledge_hits =
      String.intercalate "\n\n"
        (contract_hits.map (fun p => contract_entry p.1 p.2)
          ++ knowledge_hits.map (fun p => knowledge_entry p.1 p.2))
    ∧ (contract_hits.map (fun p => contract_entry p.1 p.2)
        ++ knowledge_hits.map (fun p => knowledge_entry p.1 p.2)).length =
        contract_hits.length + knowledge_hits.length
    ∧ (∀ p ∈ contract_hits, ∃ rest, contract_entry p.1 p.2 = "From Contract " ++ rest)
    ∧ (∀ p ∈ knowledge_hits, ∃ rest, knowledge_entry p.1 p.2 = "Knowledge Base (" ++ rest) := by
  refine ⟨?_, by simp, fun p _ => ⟨_, rfl⟩, fun p _ => ⟨_, rfl⟩⟩
  unfold retrieve_context
  simp only [foldl_append_map]
  simp

/-- Witness for C7 at one concrete hit per collection. -/
theorem C7_witness :
    retrieve_context [("docA", [("contract_name", PyVal.str "C1")])]
        [("kdoc", [("category", PyVal.str "vuln")])] =
      String.intercalate "\n\n"
        ([("docA", [("contract_name", PyVal.str "C1")])].map
            (fun p => contract_entry p.1 p.2)
          ++ [("kdoc", [("category", PyVal.str "vuln")])].map
            (fun p => knowledge_entry p.1 p.2))
    ∧ (∃ rest, contract_entry "docA" [("contract_name", PyVal.str "C1")] =
        "From Contract " ++ rest)
    ∧ (∃ rest, knowledge_entry "kdoc" [("category", PyVal.str "vuln")] =
        "Knowledge Base (" ++ rest) :=
  ⟨(C7_context_order [("docA", [("contract_name", PyVal.str "C1")])]
      [("kdoc", [("category", PyVal.str "vuln")])]).1,
   (C7_context_order [("docA", [("contract_name", PyVal.str "C1")])]
      [("kdoc", [("category", PyVal.str "vuln")])]).2.2.1
      ("docA", [("contract_name", PyVal.str "C1")]) (by simp),
   (C7_context_order [("docA", [("contract_name", PyVal.str "C1")])]
      [("kdoc", [("category", PyVal.str "vuln")])]).2.2.2
      ("kdoc", [("category", PyVal.str "vuln")]) (by simp)⟩

/-- C10: in `search_knowledge`, an empty string for category, pattern_type
or standard contributes no filter clause (the built filter is the same as
with the argument absent, and a non-empty string does contribute its
equality clause), whereas `min_severity` contributes its `$gte` clause
whenever it is present — in particular `min_severity = 0` adds a
`severity ≥ 0` clause, while an absent `min_severity` leaves the filter free
of any severity clause. -/
theorem C10_empty_string_filters :
    (∀ pattern_type min_severity standard,
      search_knowledge_where (Option.some "") pattern_type min_severity standard =
        search_knowledge_where Option.none pattern_type min_severity standard)
    ∧ (∀ category min_severity standard,
      search_knowledge_where category (Option.some "") min_severity standard =
        search_knowledge_where category Option.none min_severity standard)
    ∧ (∀ category pattern_type min_severity,
      search_knowledge_where category pattern_type min_severity (Option.some "") =
        search_knowledge_where category pattern_type min_severity Option.none)
    ∧ (∀ s pattern_type min_severity standard, s ≠ "" →
      ("category", PyVal.str s) ∈
        search_knowledge_where (Option.some s) pattern_type min_severity standard)
    ∧ (∀ category pattern_type standard n,
      ("severity", PyVal.dict [("$gte", PyVal.int n)]) ∈
        search_knowledge_where category pattern_type (Option.some n) standard)
    ∧ (∀ category pattern_type standard kv,
      kv ∈ search_knowledge_where category pattern_type Option.none standard →
        kv.1 ≠ "severity") := by
  refine ⟨?_, ?_, ?_, ?_, ?_, ?_⟩
  · intro pattern_type min_severity standard
    simp [search_knowledge_where, pyTruthyOptStr]
  · intro category min_severity standard
    simp [search_knowledge_where, pyTruthyOptStr]
  · intro category pattern_type min_severity
    simp [search_knowledge_where, pyTruthyOptStr]
  · intro s pattern_type min_severity standard hs
    simp [search_knowledge_where, pyTruthyOptStr, hs]
  · intro category pattern_type standard n
    simp [search_knowledge_where]
  · intro category pattern_type standard kv hkv
    unfold search_knowledge_where at hkv
    simp only [List.mem_append] at hkv
    rcases hkv with ((h | h) | h) | h
    · rcases hc : pyTruthyOptStr category with _ | _ <;> rw [hc] at h <;> simp_all
    · rcases hc : pyTruthyOptStr pattern_type with _ | _ <;> rw [hc] at h <;> simp_all
    · simp at h
    · rcases hc : pyTruthyOptStr standard with _ | _ <;> rw [hc] at h <;> simp_all

/-- Witness for C10 at concrete filter arguments. -/
theorem C10_witness :
    search_knowledge_where (Option.some "") (Option.some "") Option.none
        (Option.some "") =
      search_knowledge_where Option.none (Option.some "") Option.none
        (Option.some "")
    ∧ ("category", PyVal.str "vulnerability") ∈
        search_knowledge_where (Option.some "vulnerability") Option.none
          Option.none Option.none
    ∧ ("severity", PyVal.dict [("$gte", PyVal.int 0)]) ∈
        search_knowledge_where Option.none Option.none (Option.some 0) Option.none
    ∧ ("category", PyVal.str "vulnerability").1 ≠ "severity" :=
  ⟨(C10_empty_string_filters).1 (Option.some "") Option.none (Option.some ""),
   (C10_empty_string_filters).2.2.2.1 "vulnerability" Option.none Option.none
      Option.none (by decide),
   (C10_empty_string_filters).2.2.2.2.1 Option.none Option.none Option.none 0,
   (C10_empty_string_filters).2.2.2.2.2 (Option.some "vulnerability") Option.none
      Option.none ("category", PyVal.str "vulnerability") (by simp [search_knowledge_where, pyTruthyOptStr])⟩

/-- On two string values, `PyVal.beq` is string equality. -/
theorem pyval_beq_str (a b : String) :
    PyVal.beq (PyVal.str a) (PyVal.str b) = (a == b) := rfl

/-- Applying `bump_category` with a string key preserves the all-string-keys
invariant of the tally dict. -/
theorem bump_category_str_keys (acc : List (PyVal × Nat)) (c : String)
    (hacc : ∀ p ∈ acc, ∃ s : String, p.1 = PyVal.str s) :
    ∀ p ∈ bump_category acc (PyVal.str c), ∃ s : String, p.1 = PyVal.str s := by
  induction acc with
  | nil =>
    intro p hp
    simp [bump_category] at hp
    subst hp
    exact ⟨c, rfl⟩
  | cons q rest ih =>
    obtain ⟨k2, n⟩ := q
    intro p hp
    simp only [bump_category] at hp
    by_cases hb : PyVal.beq k2 (PyVal.str c) = true
    · rw [if_pos hb] at hp
      rcases List.mem_cons.mp hp with h | h
      · subst h
        exact hacc (k2, n) (List.mem_cons_self _ _)
      · exact hacc p (List.mem_cons_of_mem _ h)
    · rw [if_neg hb] at hp
      rcases List.mem_cons.mp hp with h | h
      · subst h
        exact hacc (k2, n) (List.mem_cons_self _ _)
      · exact ih (fun q hq => hacc q (List.mem_cons_of_mem _ hq)) p h

/-- Effect of one tally step on one count, when all tally keys are
strings. -/
theorem category_count_bump (acc : List (PyVal × Nat)) (c k : String)
    (hacc : ∀ p ∈ acc, ∃ s : String, p.1 = PyVal.str s) :
    category_count (bump_category acc (PyVal.str c)) (PyVal.str k) =
      category_count acc (PyVal.str k) + (if c = k then 1 else 0) := by
  induction acc with
  | nil =>
    by_cases hck : c = k
    · subst hck
      simp [bump_category, category_count, pyval_beq_str]
    · simp [bump_category, category_count, pyval_beq_str, hck,
        beq_eq_false_iff_ne.mpr hck]
  | cons q rest ih =>
    obtain ⟨k2, n⟩ := q
    obtain ⟨s, hs⟩ := hacc (k2, n) (List.mem_cons_self _ _)
    simp only at hs
    subst hs
    have ihr := ih (fun q hq => hacc q (List.mem_cons_of_mem _ hq))
    by_cases hsc : s = c
    · subst hsc
      by_cases hsk : s = k
      · subst hsk
        simp [bump_category, category_count, pyval_beq_str]
      · simp [bump_category, category_count, pyval_beq_str, hsk,
          beq_eq_false_iff_ne.mpr hsk]
    · by_cases hsk : s = k
      · subst hsk
        have hck : ¬ c = s := fun h => hsc h.symm
        simp [bump_category, category_count, pyval_beq_str, hck,
          beq_eq_false_iff_ne.mpr (fun h : s = c => hsc h)]
      · simp [bump_category, category_count, pyval_beq_str,
          beq_eq_false_iff_ne.mpr hsk, beq_eq_false_iff_ne.mpr hsc, ihr]

/-- The whole tally: the count of a string key after folding `bump_category`
over a metadata list equals its starting count plus the number of metadatas
whose category equals that key. -/
theorem category_count_foldl (mds : List PyDict) (acc : List (PyVal × Nat))
    (k : String)
    (hmds : ∀ md ∈ mds, ∃ s : String, category_of md = PyVal.str s)
    (hacc : ∀ p ∈ acc, ∃ s : String, p.1 = PyVal.str s) :
    category_count
        (mds.foldl (fun a md => bump_category a (category_of md)) acc)
        (PyVal.str k) =
      category_count acc (PyVal.str k)
        + mds.countP (fun md => PyVal.beq (category_of md) (PyVal.str k)) := by
  induction mds generalizing acc with
  | nil => simp
  | cons md rest ih =>
    obtain ⟨s, hs⟩ := hmds md (List.mem_cons_self _ _)
    rw [List.foldl_cons, List.countP_cons,
      ih (bump_category acc (category_of md))
        (fun m hm => hmds m (List.mem_cons_of_mem _ hm))
        (hs ▸ bump_category_str_keys acc s hacc),
      hs, category_count_bump acc s k hacc, pyval_beq_str]
    by_cases hsk : s = k
    · simp [hsk]
      omega
    · simp [hsk, beq_eq_false_iff_ne.mpr hsk]

/-- C5 (amended): `get_knowledge_stats` tallies categories over an
empty-query search capped at 1000 results (the `n_results=1000` constant of
line 130), not over the whole corpus; whenever the store holds at most 1000
items — in particular in the `{A, A, B}` scenario — the tally value of every
category equals the number of stored items with that category, counting a
missing category as "unknown". -/
theorem C5_stats_category_counts (col : List StoredDoc)
    (hlen : col.length ≤ 1000)
    (hcat : ∀ d ∈ col, ∃ s : String, category_of d.metadata = PyVal.str s) :
    ∀ k : String,
      category_count (get_knowledge_stats col).2 (PyVal.str k) =
        col.countP (fun d => PyVal.beq (category_of d.metadata) (PyVal.str k)) := by
  intro k
  unfold get_knowledge_stats vector_search
  have hfilter :
      List.filter (fun d => vector_search.whereD d.metadata []) col = col :=
    List.filter_eq_self.mpr (fun a _ => rfl)
  simp only [hfilter, List.take_of_length_le hlen, List.headD_cons]
  have hm : ∀ md ∈ col.map (fun d => d.metadata),
      ∃ s : String, category_of md = PyVal.str s := by
    intro md hmd
    obtain ⟨d, hd, rfl⟩ := List.mem_map.mp hmd
    exact hcat d hd
  rw [category_count_foldl (col.map (fun d => d.metadata)) [] k hm (by simp)]
  simp only [List.countP_map, category_count, Nat.zero_add]
  rfl

/-- Witness for C5 at the `{A, A, B}` scenario: the tally is A ↦ 2, B ↦ 1. -/
theorem C5_witness :
    category_count (get_knowledge_stats
        [StoredDoc.mk "1" "c" [("category", PyVal.str "A")],
         StoredDoc.mk "2" "c" [("category", PyVal.str "A")],
         StoredDoc.mk "3" "c" [("category", PyVal.str "B")]]).2
      (PyVal.str "A") = 2
    ∧ category_count (get_knowledge_stats
        [StoredDoc.mk "1" "c" [("category", PyVal.str "A")],
         StoredDoc.mk "2" "c" [("category", PyVal.str "A")],
         StoredDoc.mk "3" "c" [("category", PyVal.str "B")]]).2
      (PyVal.str "B") = 1 := by
  have hcat : ∀ d ∈
      [StoredDoc.mk "1" "c" [("category", PyVal.str "A")],
       StoredDoc.mk "2" "c" [("category", PyVal.str "A")],
       StoredDoc.mk "3" "c" [("category", PyVal.str "B")]],
      ∃ s : String, category_of d.metadata = PyVal.str s := by
    intro d hd
    simp only [List.mem_cons, List.not_mem_nil, or_false] at hd
    rcases hd with rfl | rfl | rfl
    · exact ⟨"A", rfl⟩
    · exact ⟨"A", rfl⟩
    · exact ⟨"B", rfl⟩
  constructor
  · rw [C5_stats_category_counts _ (by decide) hcat "A"]
    rfl
  · rw [C5_stats_category_counts _ (by decide) hcat "B"]
    rfl

set_option maxRecDepth 100000 in
/-- C5 counterexample: with 1001 stored items, all of category "A", the
reported tally for "A" is 1000 (the fetch is capped at 1000 results), while
the number of stored items whose category is "A" is 1001 — so stats is not a
full-corpus tabulation as claimed. -/
theorem C5_counterexample :
    category_count (get_knowledge_stats
        (List.replicate 1001
          (StoredDoc.mk "i" "c" [("category", PyVal.str "A")]))).2
      (PyVal.str "A") = 1000
    ∧ (List.replicate 1001
        (StoredDoc.mk "i" "c" [("category", PyVal.str "A")])).countP
        (fun d => PyVal.beq (category_of d.metadata) (PyVal.str "A")) = 1001 := by
  constructor
  · rfl
  · rfl

/-- The boolean comparison used by the chunk sort is transitive. -/
theorem chunk_le_trans (a b c : String × PyDict)
    (hab : decide (chunk_sort_key a.2 ≤ chunk_sort_key b.2) = true)
    (hbc : decide (chunk_sort_key b.2 ≤ chunk_sort_key c.2) = true) :
    decide (chunk_sort_key a.2 ≤ chunk_sort_key c.2) = true := by
  simp only [decide_eq_true_iff] at hab hbc ⊢
  omega

/-- The boolean comparison used by the chunk sort is total. -/
theorem chunk_le_total (a b : String × PyDict) :
    (decide (chunk_sort_key a.2 ≤ chunk_sort_key b.2)
      || decide (chunk_sort_key b.2 ≤ chunk_sort_key a.2)) = true := by
  simp only [Bool.or_eq_true, decide_eq_true_iff]
  omega

/-- C6: `analyze_stored_contract` fails with the validation error when no
stored chunk carries the given contract name; otherwise it reconstructs the
document from *some* arrangement of exactly the fetched chunks that is
sorted by stored chunk index in ascending order, joins the chunk texts with
a newline, and runs the same clause analysis on the result. -/
theorem C6_stored_contract_reconstruction (llm : String → String)
    (col : List StoredDoc) (contract_name : String) :
    ((get_documents_by_metadata col contract_name).1 = [] →
      analyze_stored_contract llm col contract_name =
        Except.error ("No chunks found for contract: " ++ contract_name))
    ∧ ((get_documents_by_metadata col contract_name).1 ≠ [] →
      ∃ sorted_chunks : List (String × PyDict),
        sorted_chunks.Perm
          ((get_documents_by_metadata col contract_name).1.zip
            (get_documents_by_metadata col contract_name).2)
        ∧ sorted_chunks.Pairwise
            (fun a b => chunk_sort_key a.2 ≤ chunk_sort_key b.2)
        ∧ analyze_stored_contract llm col contract_name =
            analyze_contract_with_claude llm
              (String.intercalate "\n" (sorted_chunks.map (fun p => p.1)))) := by
  constructor
  · intro h
    unfold analyze_stored_contract
    rw [if_pos (List.isEmpty_iff.mpr h)]
  · intro h
    refine ⟨((get_documents_by_metadata col contract_name).1.zip
        (get_documents_by_metadata col contract_name).2).mergeSort
        (fun a b => decide (chunk_sort_key a.2 ≤ chunk_sort_key b.2)),
      List.mergeSort_perm _ _, ?_, ?_⟩
    · exact (List.sorted_mergeSort chunk_le_trans chunk_le_total
        ((get_documents_by_metadata col contract_name).1.zip
          (get_documents_by_metadata col contract_name).2)).imp
        (fun hab => decide_eq_true_iff.mp hab)
    · unfold analyze_stored_contract
      rw [if_neg]
      intro hcontra
      exact h (List.isEmpty_iff.mp hcontra)

/-- Witness for C6: the error case on an empty store, and the success case
on a two-chunk store whose chunks are fetched out of index order. -/
theorem C6_witness :
    analyze_stored_contract (fun s => s) [] "X" =
      Except.error ("No chunks found for contract: " ++ "X")
    ∧ ∃ sorted_chunks : List (String × PyDict),
        sorted_chunks.Perm
          ((get_documents_by_metadata
              [StoredDoc.mk "a" "second" [("contract_name", PyVal.str "X"),
                ("chunk_index", PyVal.int 1)],
               StoredDoc.mk "b" "first" [("contract_name", PyVal.str "X"),
                ("chunk_index", PyVal.int 0)]] "X").1.zip
            (get_documents_by_metadata
              [StoredDoc.mk "a" "second" [("contract_name", PyVal.str "X"),
                ("chunk_index", PyVal.int 1)],
               StoredDoc.mk "b" "first" [("contract_name", PyVal.str "X"),
                ("chunk_index", PyVal.int 0)]] "X").2)
        ∧ sorted_chunks.Pairwise
            (fun a b => chunk_sort_key a.2 ≤ chunk_sort_key b.2)
        ∧ analyze_stored_contract (fun s => s)
            [StoredDoc.mk "a" "second" [("contract_name", PyVal.str "X"),
              ("chunk_index", PyVal.int 1)],
             StoredDoc.mk "b" "first" [("contract_name", PyVal.str "X"),
              ("chunk_index", PyVal.int 0)]] "X" =
            analyze_contract_with_claude (fun s => s)
              (String.intercalate "\n" (sorted_chunks.map (fun p => p.1))) :=
  ⟨(C6_stored_contract_reconstruction (fun s => s) [] "X").1 rfl,
   (C6_stored_contract_reconstruction (fun s => s)
      [StoredDoc.mk "a" "second" [("contract_name", PyVal.str "X"),
        ("chunk_index", PyVal.int 1)],
       StoredDoc.mk "b" "first" [("contract_name", PyVal.str "X"),
        ("chunk_index", PyVal.int 0)]] "X").2 (by decide)⟩

/-- When nothing before `arr` is `[` and `arr` starts with `[`, `str.find`
lands exactly on the start of `arr`. -/
theorem str_find_split (pre arr post : List Char)
    (hpre : ∀ c ∈ pre, c ≠ '[') (hhead : arr.head? = Option.some '[') :
    str_find (String.mk (pre ++ arr ++ post)) '[' = (pre.length : Int) := by
  cases arr with
  | nil => simp at hhead
  | cons a t =>
    have ha : a = '[' := by simpa using hhead
    subst ha
    unfold str_find
    have hnone : pre.findIdx? (fun x => decide (x = '[')) = Option.none :=
      List.findIdx?_eq_none_iff.mpr
        (fun x hx => decide_eq_false (hpre x hx))
    rw [show String.mk (pre ++ '[' :: t ++ post) = String.mk (pre ++ ('[' :: t ++ post))
        from by rw [List.append_assoc]]
    show (match (pre ++ ('[' :: t ++ post)).findIdx? (fun x => decide (x = '[')) with
      | Option.some i => (i : Int)
      | Option.none => -1) = (pre.length : Int)
    rw [List.findIdx?_append, hnone, List.findIdx?_append, List.findIdx?_cons]
    simp

/-- When nothing after `arr` is `]` and `arr` ends with `]`, `str.rfind`
lands exactly on the end of `arr`. -/
theorem str_rfind_split (pre arr post : List Char)
    (hpost : ∀ c ∈ post, c ≠ ']') (hlast : arr.getLast? = Option.some ']') :
    str_rfind (String.mk (pre ++ arr ++ post)) ']' =
      ((pre.length + arr.length - 1 : Nat) : Int) := by
  have hrevhead : arr.reverse.head? = Option.some ']' := by
    rw [List.head?_reverse]
    exact hlast
  obtain ⟨t, ht⟩ : ∃ t, arr.reverse = ']' :: t := by
    cases hr : arr.reverse with
    | nil => rw [hr] at hrevhead; simp at hrevhead
    | cons a t =>
      rw [hr] at hrevhead
      exact ⟨t, by simpa using hrevhead⟩
  have harrlen : arr.length = t.length + 1 := by
    have := congrArg List.length ht
    simpa using this
  unfold str_rfind
  have hnone : post.reverse.findIdx? (fun x => decide (x = ']')) = Option.none :=
    List.findIdx?_eq_none_iff.mpr
      (fun x hx => decide_eq_false (hpost x (List.mem_reverse.mp hx)))
  show (match (pre ++ arr ++ post).reverse.findIdx? (fun x => decide (x = ']')) with
    | Option.some i =>
      (((pre ++ arr ++ post).length - 1 - i : Nat) : Int)
    | Option.none => -1) = ((pre.length + arr.length - 1 : Nat) : Int)
  rw [List.reverse_append, List.reverse_append, List.append_assoc,
    List.findIdx?_append, hnone, ht, List.findIdx?_append, List.findIdx?_cons,
    if_pos (show decide (']' = ']') = true from rfl)]
  simp only [Option.or, Option.none_or, Option.map_some, Nat.zero_add,
    List.length_reverse]
  have hlen : (pre ++ (arr ++ post)).length =
      pre.length + arr.length + post.length := by
    simp [List.length_append]
    omega
  rw [hlen]
  show ((pre.length + arr.length + post.length - 1 - (0 + post.length) : Nat) : Int)
    = ((pre.length + arr.length - 1 : Nat) : Int)
  congr 1
  omega

/-- The extraction applied to a response whose only brackets delimit a
single well-formed JSON array `arr`: the slice is exactly `arr`, and the
result is determined by validating the parsed items. -/
theorem extractClauses_split (pre arr post : List Char) (items : List PyVal)
    (hpre : ∀ c ∈ pre, c ≠ '[') (hpost : ∀ c ∈ post, c ≠ ']')
    (hhead : arr.head? = Option.some '[') (hlast : arr.getLast? = Option.some ']')
    (hparse : json_loads (String.mk arr) = Option.some (PyVal.list items)) :
    extractClauses (String.mk (pre ++ arr ++ post)) =
      (items.findSome? missing_field).elim (Except.ok items)
        (fun f => Except.error ("Missing required field: " ++ f ++ " in analysis item")) := by
  have harr1 : 1 ≤ arr.length := by
    cases arr with
    | nil => simp at hhead
    | cons a t => simp
  have hfind := str_find_split pre arr post hpre hhead
  have hrfind := str_rfind_split pre arr post hpost hlast
  unfold extractClauses
  rw [hfind, hrfind]
  rw [if_pos (by constructor <;> omega)]
  have hslice :
      ((String.mk (pre ++ arr ++ post)).data.drop
          ((pre.length : Int)).toNat).take
        ((((pre.length + arr.length - 1 : Nat) : Int) + 1).toNat -
          ((pre.length : Int)).toNat) = arr := by
    have h1 : ((pre.length : Int)).toNat = pre.length := Int.toNat_natCast _
    have h2 : (((pre.length + arr.length - 1 : Nat) : Int) + 1).toNat =
        pre.length + arr.length := by omega
    rw [h1, h2]
    show ((pre ++ arr ++ post).drop pre.length).take
      (pre.length + arr.length - pre.length) = arr
    rw [List.append_assoc, List.drop_left]
    have h3 : pre.length + arr.length - pre.length = arr.length := by omega
    rw [h3, List.take_left]
  rw [hslice]
  simp only [hparse]
  cases hfs : items.findSome? missing_field <;> rfl

/-- C3: clause extraction slices from the first `[` to the last `]` and
parses the slice as JSON.  (1) When the response consists of a single
well-formed JSON array of 3 items, each carrying all four required fields,
surrounded by bracket-free prose, it returns exactly those 3 records in
array order.  (2) When the response has no `[` or no `]`, it fails with the
"no valid JSON array found" error.  (3) When the parsed array has an element
missing a required field, it fails with the "missing required field" error
naming the first missing field of the first deficient element, returning no
partial result. -/
theorem C3_extract_clauses :
    (∀ (pre arr post : List Char) (items : List PyVal),
      (∀ c ∈ pre, c ≠ '[') → (∀ c ∈ post, c ≠ ']') →
      arr.head? = Option.some '[' → arr.getLast? = Option.some ']' →
      json_loads (String.mk arr) = Option.some (PyVal.list items) →
      items.length = 3 →
      items.findSome? missing_field = Option.none →
      extractClauses (String.mk (pre ++ arr ++ post)) = Except.ok items)
    ∧ (∀ response : String,
      ((∀ c ∈ response.data, c ≠ '[') ∨ (∀ c ∈ response.data, c ≠ ']')) →
      extractClauses response =
        Except.error "No valid JSON array found in AI analysis response")
    ∧ (∀ (pre arr post : List Char) (items : List PyVal) (f : String),
      (∀ c ∈ pre, c ≠ '[') → (∀ c ∈ post, c ≠ ']') →
      arr.head? = Option.some '[' → arr.getLast? = Option.some ']' →
      json_loads (String.mk arr) = Option.some (PyVal.list items) →
      items.findSome? missing_field = Option.some f →
      extractClauses (String.mk (pre ++ arr ++ post)) =
        Except.error ("Missing required field: " ++ f ++ " in analysis item")) := by
  refine ⟨?_, ?_, ?_⟩
  · intro pre arr post items hpre hpost hhead hlast hparse _ hnone
    rw [extractClauses_split pre arr post items hpre hpost hhead hlast hparse,
      hnone]
    rfl
  · intro response h
    unfold extractClauses
    rw [if_neg]
    intro hcontra
    rcases h with h | h
    · have : str_find response '[' = -1 := by
        unfold str_find
        rw [List.findIdx?_eq_none_iff.mpr
          (fun x hx => decide_eq_false (h x hx))]
      exact hcontra.1 this
    · have : str_rfind response ']' = -1 := by
        unfold str_rfind
        rw [List.findIdx?_eq_none_iff.mpr
          (fun x hx => decide_eq_false (h x (List.mem_reverse.mp hx)))]
      exact hcontra.2 (by rw [this]; decide)
  · intro pre arr post items f hpre hpost hhead hlast hparse hsome
    rw [extractClauses_split pre arr post items hpre hpost hhead hlast hparse,
      hsome]
    rfl

set_option maxRecDepth 100000 in
/-- Witness for C3 on concrete canned responses: a 3-clause array inside
prose is returned in order; a bracket-free response and an array missing the
`explanation` field on one element produce the two errors. -/
theorem C3_witness :
    extractClauses (String.mk ("Here is the analysis: ".data ++
        "[\x7b\"clause_number\": 1, \"original_clause\": \"a\", \"explanation\": \"b\", \"risk_flag\": \"No\"\x7d, \x7b\"clause_number\": 2, \"original_clause\": \"c\", \"explanation\": \"d\", \"risk_flag\": \"Yes\", \"risk_reason\": \"r\"\x7d, \x7b\"clause_number\": 3, \"original_clause\": \"e\", \"explanation\": \"f\", \"risk_flag\": \"No\"\x7d]".data ++
        " Done.".data)) =
      Except.ok
        [PyVal.dict [("clause_number", PyVal.int 1),
            ("original_clause", PyVal.str "a"),
            ("explanation", PyVal.str "b"),
            ("risk_flag", PyVal.str "No")],
         PyVal.dict [("clause_number", PyVal.int 2),
            ("original_clause", PyVal.str "c"),
            ("explanation", PyVal.str "d"),
            ("risk_flag", PyVal.str "Yes"),
            ("risk_reason", PyVal.str "r")],
         PyVal.dict [("clause_number", PyVal.int 3),
            ("original_clause", PyVal.str "e"),
            ("explanation", PyVal.str "f"),
            ("risk_flag", PyVal.str "No")]]
    ∧ extractClauses "no array here" =
        Except.error "No valid JSON array found in AI analysis response"
    ∧ extractClauses (String.mk ("Reply: ".data ++
        "[\x7b\"clause_number\": 1, \"original_clause\": \"a\", \"risk_flag\": \"No\"\x7d]".data ++
        " end".data)) =
        Except.error ("Missing required field: " ++ "explanation" ++ " in analysis item") :=
  ⟨C3_extract_clauses.1 "Here is the analysis: ".data
      "[\x7b\"clause_number\": 1, \"original_clause\": \"a\", \"explanation\": \"b\", \"risk_flag\": \"No\"\x7d, \x7b\"clause_number\": 2, \"original_clause\": \"c\", \"explanation\": \"d\", \"risk_flag\": \"Yes\", \"risk_reason\": \"r\"\x7d, \x7b\"clause_number\": 3, \"original_clause\": \"e\", \"explanation\": \"f\", \"risk_flag\": \"No\"\x7d]".data
      " Done.".data _
      (by decide) (by decide) (by decide) (by decide) (by rfl) (by rfl) (by rfl),
   C3_extract_clauses.2.1 "no array here" (Or.inl (by decide)),
   C3_extract_clauses.2.2 "Reply: ".data
      "[\x7b\"clause_number\": 1, \"original_clause\": \"a\", \"risk_flag\": \"No\"\x7d]".data
      " end".data _ "explanation"
      (by decide) (by decide) (by decide) (by decide) (by rfl) (by rfl)⟩
